import Mathlib

set_option maxHeartbeats 4000000
set_option maxRecDepth 8000

/- Shallow embedding of src/main.py: a volleyball free-text annotation parser.
   Strings are Lean `String`s; processing runs over `List Char`.  The two fixed
   regular expressions of the source (`\b{variant}\b` substitution and
   `\b(\d{1,2})\b` search) are modelled directly, on their ASCII fragment. -/

/-- Python regex word character (ASCII fragment of `\w`): `[a-zA-Z0-9_]`. -/
def isWordChar (c : Char) : Bool := c.isAlphanum || c == '_'

/-- ASCII digit, the `\d` class used by the player-number pattern. -/
def reDigit (c : Char) : Bool := 48 ≤ c.toNat && c.toNat ≤ 57

/-- Whitespace stripped by Python `str.strip` (ASCII fragment). -/
def pyIsSpace (c : Char) : Bool :=
  c == ' ' || c == '\t' || c == '\n' || c == '\r' || c == '\x0b' || c == '\x0c'

/-- Python `str.strip`: drop whitespace from both ends. -/
def pyStrip (s : List Char) : List Char :=
  ((s.dropWhile pyIsSpace).reverse.dropWhile pyIsSpace).reverse

/-- Python `str.lower` (ASCII fragment). -/
def pyLower (s : List Char) : List Char := s.map Char.toLower

/-- A `\b` word boundary holds before a word character when the previous
    character (if any) is not a word character. -/
def boundaryBefore : Option Char → Bool
  | none => true
  | some c => !isWordChar c

/-- A `\b` word boundary holds after a word character when the next
    character (if any) is not a word character. -/
def boundaryAfter : List Char → Bool
  | [] => true
  | c :: _ => !isWordChar c

/-- Core of `re.sub(rf"\b{re.escape(variant)}\b", canonical, s)` for a
    non-empty variant `vh :: vt` whose first and last characters are word
    characters (true of every synonym in the table): scan left to right,
    replace each non-overlapping boundary-delimited occurrence, and continue
    scanning in the original text after the matched occurrence. -/
def replaceWordAux (vh : Char) (vt : List Char) (repl : List Char) :
    Nat → Option Char → List Char → List Char
  | 0, _, s => s
  | _, _, [] => []
  | fuel + 1, prev, c :: rest =>
      if boundaryBefore prev && (vh :: vt).isPrefixOf (c :: rest) &&
          boundaryAfter (List.drop vt.length rest) then
        repl ++ replaceWordAux vh vt repl fuel (some (vt.getLastD vh)) (List.drop vt.length rest)
      else
        c :: replaceWordAux vh vt repl fuel (some c) rest

/-- `re.sub(rf"\b{re.escape(variant)}\b", repl, s)` for the variants occurring
    in the synonym table (all non-empty, starting and ending in a letter).
    An empty variant never occurs; returning `s` there is a totality guard.
    The fuel `s.length` always suffices: every scan step consumes at least
    one character of the working string, so the zero-fuel guard is reached
    only on the empty remainder. -/
def replaceWord (variant repl s : List Char) : List Char :=
  match variant with
  | [] => s
  | vh :: vt => replaceWordAux vh vt repl s.length none s

/-- Python substring containment `sub in s`. -/
def containsSub (sub : List Char) : List Char → Bool
  | [] => sub.isEmpty
  | c :: rest => sub.isPrefixOf (c :: rest) || containsSub sub rest

/-- Stable insertion for a length-descending sort: `x` goes before the first
    element with a strictly smaller key and after every earlier element whose
    key is at least as large, matching Python `sorted(key=..., reverse=True)`
    stability. -/
def insertByKeyDesc {α : Type} (key : α → Nat) (x : α) : List α → List α
  | [] => [x]
  | y :: ys => if key y ≤ key x then x :: y :: ys else y :: insertByKeyDesc key x ys

/-- Stable sort, descending by `key`: the embedding of Python
    `sorted(items, key=..., reverse=True)` (any stable sort by the same key
    yields the same list). -/
def sortByKeyDesc {α : Type} (key : α → Nat) : List α → List α
  | [] => []
  | x :: xs => insertByKeyDesc key x (sortByKeyDesc key xs)

/-- The EVENT_MAP table of src/main.py, in source order:
    canonical phrase ↦ (event kind, point attribution). -/
def EVENT_MAP : List (String × String × Option String) := [
  ("serve", "SERVE", none),
  ("ace", "ACE", some "us"),
  ("serve error", "SERVE_ERROR", some "them"),
  ("hit attempt", "HIT_ATTEMPT", none),
  ("kill", "KILL", some "us"),
  ("hit error", "HIT_ERROR", some "them"),
  ("good pass", "GOOD_PASS", none),
  ("bad pass", "BAD_PASS", none),
  ("pass error", "PASS_ERROR", some "them"),
  ("block", "BLOCK", some "us"),
  ("block assist", "BLOCK_ASSIST", none),
  ("block error", "BLOCK_ERROR", some "them"),
  ("assist", "ASSIST", none),
  ("ball handling error", "BALL_HANDLING_ERROR", some "them"),
  ("dig", "DIG", none),
  ("dig error", "DIG_ERROR", some "them"),
  ("point us", "POINT_US", some "us"),
  ("point them", "POINT_THEM", some "them")]

def SYNONYM_VERSION : String := "v1"

/-- The SYNONYM_RULES table of src/main.py, in source order:
    version ↦ (canonical phrase ↦ synonym variants). -/
def SYNONYM_RULES : List (String × List (String × List String)) := [
  ("v1", [
    ("serve", ["served", "served the ball"]),
    ("ace", ["got an ace", "aced them"]),
    ("serve error", ["service error", "foot fault", "served in the net",
      "served out", "served long", "serve in the net"]),
    ("hit attempt", ["hit attempt", "attack", "swing", "spike"]),
    ("kill", ["got a kill", "gets a kill", "killed it"]),
    ("hit error", ["hit error", "attack error", "missed hit", "hit in the net",
      "hit out", "tip error", "tipped it out", "tipped the ball out", "swung out"]),
    ("good pass", ["nice pass", "pass", "solid pass", "dime", "dime pass",
      "perfect pass"]),
    ("bad pass", ["bad pass", "poor pass", "weak pass"]),
    ("pass error", ["got aced", "missed pass", "passing error"]),
    ("block", ["got a block", "blocked it", "blocked the ball", "solo block"]),
    ("block assist", ["got a block assist"]),
    ("block error", ["missed block", "hit the net", "net violation", "net",
      "block in the net", "block out"]),
    ("assist", ["got an assist"]),
    ("ball handling error", ["double contact", "lift", "carry", "illegal contact"]),
    ("dig", ["got a dig", "dug it", "dug the ball"]),
    ("dig error", ["missed dig", "missed the dig"]),
    ("point us", ["our point", "we got a point", "point for us", "point to us",
      "point us", "point for our team"]),
    ("point them", ["their point", "they got a point", "point for them"])])]

/-- `normalize_with_synonyms` of src/main.py, with the module-global
    `SYNONYM_VERSION` made an explicit parameter (the spec's
    `normalize(text, version)` contract): trim and lower-case, flatten the
    selected version's rules (empty fallback for an unknown version), sort
    by variant length descending (stable), and apply each whole-word
    substitution in turn to the working string. -/
def normalize_with_synonyms_v (version : String) (text : String) : String :=
  let cleaned := pyLower (pyStrip text.data)
  let rules := (List.lookup version SYNONYM_RULES).getD []
  let replacements := rules.flatMap (fun cv => cv.2.map (fun v => (v, cv.1)))
  let ordered := sortByKeyDesc (fun r => r.1.length) replacements
  String.mk (ordered.foldl (fun acc vc => replaceWord vc.1.data vc.2.data acc) cleaned)

/-- `normalize_with_synonyms` as called by `parse_command`: the selected
    version is the module constant. -/
def normalize_with_synonyms (text : String) : String :=
  normalize_with_synonyms_v SYNONYM_VERSION text

/-- Digit value of an ASCII digit character. -/
def digitVal (c : Char) : Nat := c.toNat - 48

/-- `re.search(r"\b(\d{1,2})\b", s)` returning `int(m.group(1))`: leftmost
    match, greedy (two digits preferred over one at the same start position),
    with word boundaries on both sides of the digit group; when no match
    starts at the current position the scan moves one character right. -/
def findNumberAux : Option Char → List Char → Option Int
  | _, [] => none
  | prev, [c] =>
      if boundaryBefore prev && reDigit c then some (Int.ofNat (digitVal c))
      else none
  | prev, c :: d :: rest2 =>
      if boundaryBefore prev && reDigit c then
        if reDigit d && boundaryAfter rest2 then
          some (Int.ofNat (10 * digitVal c + digitVal d))
        else if !isWordChar d then
          some (Int.ofNat (digitVal c))
        else
          findNumberAux (some c) (d :: rest2)
      else
        findNumberAux (some c) (d :: rest2)

def findNumber (s : List Char) : Option Int := findNumberAux none s

/-- The membership test `cleaned in ("point us", "point them")`. -/
def isPointCmd (s : String) : Bool := s == "point us" || s == "point them"

/-- `sorted(EVENT_MAP.keys(), key=len, reverse=True)`. -/
def sortedEventPhrases : List String :=
  sortByKeyDesc String.length (EVENT_MAP.map (fun e => e.1))

/-- The phrase-matching loop of `parse_command`: first (in the
    length-descending key order) canonical phrase that occurs as a substring
    of the normalized text and is not one of the two point commands. -/
def findPhrase (cleaned : String) : Option String :=
  sortedEventPhrases.find?
    (fun p => containsSub p.data cleaned.data && !(p == "point us" || p == "point them"))

/-- The `ParsedEvent` record of src/main.py. -/
structure ParsedEvent where
  setNumber : Int
  playerNumber : Option Int
  event : String
  pointAwardedTo : Option String
  needsReview : Bool
  rawText : String
deriving DecidableEq, Repr

/-- The body of `parse_command` of src/main.py after its opening
    `normalize_with_synonyms` call (the spec's
    `match(normalized, rawText, setNumber)` contract): the point-command
    short circuit, then phrase matching and number extraction, then result
    assembly.  The two Python dictionary accesses `EVENT_MAP[...]` (which
    would raise `KeyError` for a missing key) are modelled as `List.lookup`,
    so the function returns `none` exactly when the Python code would raise. -/
def match_event (cleaned : String) (text : String) (setNumber : Int) : Option ParsedEvent :=
  if isPointCmd cleaned then
    match List.lookup cleaned EVENT_MAP with
    | some ea => some ⟨setNumber, none, ea.1, ea.2, false, text⟩
    | none => none
  else
    match findPhrase cleaned, findNumber cleaned.data with
    | some phrase, some p =>
        match List.lookup phrase EVENT_MAP with
        | some ea => some ⟨setNumber, some p, ea.1, ea.2, false, text⟩
        | none => none
    | _, player => some ⟨setNumber, player, "UNKNOWN", none, true, text⟩

/-- `parse_command` of src/main.py: normalize, then the matcher above. -/
def parse_command (text : String) (setNumber : Int) : Option ParsedEvent :=
  match_event (normalize_with_synonyms text) text setNumber

lemma digitVal_le_nine (c : Char) (h : reDigit c = true) : digitVal c ≤ 9 := by
  simp only [reDigit, Bool.and_eq_true, decide_eq_true_eq] at h
  unfold digitVal
  omega

lemma findNumberAux_range : ∀ (s : List Char) (prev : Option Char) (p : Int),
    findNumberAux prev s = some p → 0 ≤ p ∧ p ≤ 99
  | [], _, p, h => by simp [findNumberAux] at h
  | [c], prev, p, h => by
      simp only [findNumberAux] at h
      split at h
      case isTrue hcond =>
        obtain rfl := Option.some.inj h
        rw [Bool.and_eq_true] at hcond
        have h9 := digitVal_le_nine c hcond.2
        simp only [Int.ofNat_eq_coe]
        omega
      case isFalse => exact absurd h (by simp)
  | c :: d :: rest2, prev, p, h => by
      simp only [findNumberAux] at h
      split at h
      case isTrue hcond =>
        rw [Bool.and_eq_true] at hcond
        split at h
        case isTrue hcond2 =>
          obtain rfl := Option.some.inj h
          rw [Bool.and_eq_true] at hcond2
          have h9 := digitVal_le_nine c hcond.2
          have h9d := digitVal_le_nine d hcond2.1
          simp only [Int.ofNat_eq_coe]
          omega
        case isFalse =>
          split at h
          case isTrue =>
            obtain rfl := Option.some.inj h
            have h9 := digitVal_le_nine c hcond.2
            simp only [Int.ofNat_eq_coe]
            omega
          case isFalse => exact findNumberAux_range (d :: rest2) (some c) p h
      case isFalse => exact findNumberAux_range (d :: rest2) (some c) p h

lemma isPointCmd_cases (s : String) (h : isPointCmd s = true) :
    s = "point us" ∨ s = "point them" := by
  simpa only [isPointCmd, Bool.or_eq_true, beq_iff_eq] using h

lemma isPointCmd_eq_false (s : String) (h1 : s ≠ "point us") (h2 : s ≠ "point them") :
    isPointCmd s = false := by
  simp [isPointCmd, h1, h2]

lemma lookup_phrase_isSome : ∀ p ∈ sortedEventPhrases, (List.lookup p EVENT_MAP).isSome = true := by
  decide

lemma match_event_review (cleaned text : String) (n : Int) (r : ParsedEvent)
    (h : match_event cleaned text n = some r) :
    r.needsReview = (!isPointCmd cleaned &&
      ((findNumber cleaned.data).isNone || (findPhrase cleaned).isNone)) := by
  unfold match_event at h
  split at h
  next hpt =>
    split at h
    next ea hl =>
      obtain rfl := Option.some.inj h
      rw [hpt]
      rfl
    next hl => exact absurd h (by simp)
  next hpt =>
    have hpf : isPointCmd cleaned = false := by
      revert hpt; cases isPointCmd cleaned <;> simp
    rw [hpf]
    split at h
    · rename_i x1 x2 phrase p hph hpn
      split at h
      · obtain rfl := Option.some.inj h
        simp [hph, hpn]
      · simp at h
    · rename_i x1 x2 hnone
      obtain rfl := Option.some.inj h
      cases hf : findPhrase cleaned with
      | none => simp [hf]
      | some phrase =>
          cases hn : findNumber cleaned.data with
          | none => simp [hn]
          | some p => exact (hnone phrase p hf hn).elim

lemma match_event_frame (cleaned text : String) (n : Int) (r : ParsedEvent)
    (h : match_event cleaned text n = some r) : r.rawText = text ∧ r.setNumber = n := by
  unfold match_event at h
  split at h
  · split at h
    · obtain rfl := Option.some.inj h
      exact ⟨rfl, rfl⟩
    · simp at h
  · split at h
    · split at h
      · obtain rfl := Option.some.inj h
        exact ⟨rfl, rfl⟩
      · simp at h
    · obtain rfl := Option.some.inj h
      exact ⟨rfl, rfl⟩

lemma match_event_player (cleaned text : String) (n : Int) (r : ParsedEvent) (p : Int)
    (h : match_event cleaned text n = some r) (hp : r.playerNumber = some p) :
    0 ≤ p ∧ p ≤ 99 := by
  unfold match_event at h
  split at h
  · split at h
    · obtain rfl := Option.some.inj h
      simp at hp
    · simp at h
  · split at h
    · rename_i x1 x2 phrase q hph hpn
      split at h
      · obtain rfl := Option.some.inj h
        simp only [Option.some.injEq] at hp
        rw [← hp]
        exact findNumberAux_range cleaned.data none q hpn
      · simp at h
    · rename_i x1 x2 hnone
      obtain rfl := Option.some.inj h
      exact findNumberAux_range cleaned.data none p hp

lemma match_event_isSome (cleaned text : String) (n : Int) :
    (match_event cleaned text n).isSome = true := by
  unfold match_event
  split
  · rename_i hpt
    rcases isPointCmd_cases cleaned hpt with rfl | rfl
    · rfl
    · rfl
  · split
    · rename_i phrase p hph hpn
      have hmem : phrase ∈ sortedEventPhrases := List.mem_of_find?_eq_some hph
      obtain ⟨ea, hea⟩ := Option.isSome_iff_exists.mp (lookup_phrase_isSome phrase hmem)
      rw [hea]
      rfl
    · rfl

lemma match_event_unknown (cleaned text : String) (n : Int) (r : ParsedEvent)
    (h : match_event cleaned text n = some r)
    (hpf : isPointCmd cleaned = false)
    (hor : ((findNumber cleaned.data).isNone || (findPhrase cleaned).isNone) = true) :
    r.event = "UNKNOWN" ∧ r.needsReview = true := by
  unfold match_event at h
  split at h
  · rename_i hpt
    rw [hpt] at hpf
    simp at hpf
  · split at h
    · rename_i x1 x2 phrase p hph hpn
      rw [hph, hpn] at hor
      simp at hor
    · obtain rfl := Option.some.inj h
      exact ⟨rfl, rfl⟩

/-- C1 counterexample: "bad pass" is a canonical phrase in EVENT_MAP other
    than the two point commands, yet parsing "bad pass 7" yields the event
    GOOD_PASS (the synonym rule "pass" → "good pass" rewrites the text to
    "bad good pass 7" during normalization), not the mapped kind BAD_PASS. -/
theorem C1_counterexample :
    ("bad pass", "BAD_PASS", (none : Option String)) ∈ EVENT_MAP ∧
    parse_command "bad pass 7" 0 =
      some ⟨0, some 7, "GOOD_PASS", none, false, "bad pass 7"⟩ ∧
    "GOOD_PASS" ≠ "BAD_PASS" :=
  ⟨by decide, by decide, by decide⟩

/-- C1 (amended): for every canonical phrase P of the event rule table other
    than "point us", "point them" and "bad pass", parsing "{P} 7" with any
    setNumber yields a ParsedEvent with P's mapped kind and attribution,
    playerNumber 7 and needsReview false. -/
theorem C1_canonical_phrase_parse (n : Int) (P kind : String) (aw : Option String)
    (hmem : (P, kind, aw) ∈ EVENT_MAP)
    (h1 : P ≠ "point us") (h2 : P ≠ "point them") (h3 : P ≠ "bad pass") :
    parse_command (P ++ " 7") n = some ⟨n, some 7, kind, aw, false, P ++ " 7"⟩ := by
  fin_cases hmem <;>
    first
      | exact absurd rfl h1
      | exact absurd rfl h2
      | exact absurd rfl h3
      | rfl

/-- C1 witness: the amended claim at P = "kill", setNumber 0. -/
theorem C1_witness :
    parse_command ("kill" ++ " 7") 0 =
      some ⟨0, some 7, "KILL", some "us", false, "kill" ++ " 7"⟩ :=
  C1_canonical_phrase_parse 0 "kill" "KILL" (some "us")
    (by decide) (by decide) (by decide) (by decide)

/-- C2 counterexample: the canonical phrase "bad pass" stands in the working
    string (the input is already canonical), yet the later, shorter synonym
    rule "pass" → "good pass" of the different canonical "good pass"
    re-matches and rewrites it, so the normalized result no longer contains
    "bad pass". -/
theorem C2_counterexample :
    ("bad pass", "BAD_PASS", (none : Option String)) ∈ EVENT_MAP ∧
    ("pass", "good pass") ∈
      ((List.lookup "v1" SYNONYM_RULES).getD []).flatMap
        (fun cv => cv.2.map (fun v => (v, cv.1))) ∧
    containsSub "bad pass".data (normalize_with_synonyms "bad pass").data = false :=
  ⟨by decide, by decide, by decide⟩

/-- C2 (amended): a canonical phrase present in the working string CAN be
    re-matched and rewritten by a later, shorter synonym rule belonging to a
    different canonical phrase, whenever that shorter synonym occurs as a
    whole word inside it: normalizing "bad pass" applies "pass" → "good pass"
    and yields "bad good pass". -/
theorem C2_bad_pass_rewritten :
    normalize_with_synonyms "bad pass" = "bad good pass" := by decide

/-- C3: in every output of parse_command, needsReview is true exactly when
    the normalized text is not one of the two standalone point commands and
    either no player number was extracted or no canonical phrase matched;
    in particular it is false on the two exact point commands despite the
    absent player number. -/
theorem C3_needsReview_iff (t : String) (n : Int) (r : ParsedEvent)
    (h : parse_command t n = some r) :
    r.needsReview =
      (!isPointCmd (normalize_with_synonyms t) &&
        ((findNumber (normalize_with_synonyms t).data).isNone ||
         (findPhrase (normalize_with_synonyms t)).isNone)) :=
  match_event_review (normalize_with_synonyms t) t n r h

/-- C3 witness: at input "kill" (phrase matched, no number) the equation
    instantiates with needsReview true. -/
theorem C3_witness :
    (⟨0, none, "UNKNOWN", none, true, "kill"⟩ : ParsedEvent).needsReview =
      (!isPointCmd (normalize_with_synonyms "kill") &&
        ((findNumber (normalize_with_synonyms "kill").data).isNone ||
         (findPhrase (normalize_with_synonyms "kill")).isNone)) :=
  C3_needsReview_iff "kill" 0 ⟨0, none, "UNKNOWN", none, true, "kill"⟩ (by decide)

/-- C4: whenever the normalization of the input is exactly "point us" or
    exactly "point them", parse_command returns the short-circuit record:
    playerNumber absent, event and pointAwardedTo from the rule table,
    needsReview false, skipping number extraction and phrase matching. -/
theorem C4_point_command_short_circuit (t : String) (n : Int)
    (h : normalize_with_synonyms t = "point us" ∨
         normalize_with_synonyms t = "point them") :
    parse_command t n = some ⟨n, none,
      (if normalize_with_synonyms t = "point us" then "POINT_US" else "POINT_THEM"),
      (if normalize_with_synonyms t = "point us" then some "us" else some "them"),
      false, t⟩ := by
  show match_event (normalize_with_synonyms t) t n = _
  rcases h with h | h <;> rw [h] <;> rfl

/-- C4 witness: "our point" normalizes to exactly "point us". -/
theorem C4_witness :
    parse_command "our point" 3 = some ⟨3, none,
      (if normalize_with_synonyms "our point" = "point us" then "POINT_US" else "POINT_THEM"),
      (if normalize_with_synonyms "our point" = "point us" then some "us" else some "them"),
      false, "our point"⟩ :=
  C4_point_command_short_circuit "our point" 3 (Or.inl (by decide))

/-- C5: parse_command is total: for every input string and every setNumber it
    returns a ParsedEvent (the modelled Python KeyError paths are unreachable),
    and when the point short circuit does not apply and either extraction
    failed, the result defaults to event "UNKNOWN" with needsReview true. -/
theorem C5_total (t : String) (n : Int) :
    ∃ r, parse_command t n = some r ∧
      (isPointCmd (normalize_with_synonyms t) = false →
       ((findNumber (normalize_with_synonyms t).data).isNone ||
        (findPhrase (normalize_with_synonyms t)).isNone) = true →
       r.event = "UNKNOWN" ∧ r.needsReview = true) := by
  obtain ⟨r, hr⟩ := Option.isSome_iff_exists.mp
    (match_event_isSome (normalize_with_synonyms t) t n)
  exact ⟨r, hr, fun h1 h2 => match_event_unknown (normalize_with_synonyms t) t n r hr h1 h2⟩

/-- C6: on all return paths, rawText is the original input string unchanged
    and setNumber is the caller-supplied value unchanged. -/
theorem C6_frame (t : String) (n : Int) (r : ParsedEvent)
    (h : parse_command t n = some r) : r.rawText = t ∧ r.setNumber = n :=
  match_event_frame (normalize_with_synonyms t) t n r h

/-- C6 witness: at input "x", setNumber 5. -/
theorem C6_witness :
    (⟨5, none, "UNKNOWN", none, true, "x"⟩ : ParsedEvent).rawText = "x" ∧
    (⟨5, none, "UNKNOWN", none, true, "x"⟩ : ParsedEvent).setNumber = 5 :=
  C6_frame "x" 5 ⟨5, none, "UNKNOWN", none, true, "x"⟩ (by decide)

/-- C7: when the selected synonym-table version is not a key of the table,
    normalization falls back to the empty rule set and returns the input
    merely trimmed of surrounding whitespace and lower-cased, with no
    substitutions performed. -/
theorem C7_unknown_version_fallback (v t : String)
    (h : List.lookup v SYNONYM_RULES = none) :
    normalize_with_synonyms_v v t = String.mk (pyLower (pyStrip t.data)) := by
  unfold normalize_with_synonyms_v
  rw [h]
  rfl

/-- C7 witness: version "v2" is unknown; "  Hello " is only trimmed and
    lower-cased. -/
theorem C7_witness : normalize_with_synonyms_v "v2" "  Hello " = "hello" :=
  (C7_unknown_version_fallback "v2" "  Hello " (by decide)).trans (by decide)

/-- C8: "10 attack error" resolves through the longer synonym "attack error"
    to the canonical "hit error", giving HIT_ERROR with playerNumber 10 and
    needsReview false; the matched phrase is "hit error", so the shorter
    synonym "attack" / HIT_ATTEMPT rule is never used. -/
theorem C8_longer_synonym_precedence (n : Int) :
    parse_command "10 attack error" n =
      some ⟨n, some 10, "HIT_ERROR", some "them", false, "10 attack error"⟩ ∧
    findPhrase (normalize_with_synonyms "10 attack error") = some "hit error" :=
  ⟨rfl, by decide⟩

/-- C9: whenever the output's playerNumber is present, it lies in [0, 99]:
    the extraction takes the first whole-word run of one or two decimal
    digits. -/
theorem C9_player_range (t : String) (n : Int) (r : ParsedEvent) (p : Int)
    (h : parse_command t n = some r) (hp : r.playerNumber = some p) :
    0 ≤ p ∧ p ≤ 99 :=
  match_event_player (normalize_with_synonyms t) t n r p h hp

/-- C9 witness: at input "5 dig" the extracted player number 5 is in range. -/
theorem C9_witness :
    parse_command "5 dig" 1 = some ⟨1, some 5, "DIG", none, false, "5 dig"⟩ ∧
    (0 ≤ (5 : Int) ∧ (5 : Int) ≤ 99) :=
  ⟨by decide,
   C9_player_range "5 dig" 1 ⟨1, some 5, "DIG", none, false, "5 dig"⟩ 5
     (by decide) (by decide)⟩

/-- C10: when the normalized input properly contains "point us" or
    "point them" without being exactly equal to either, and contains no
    non-point canonical phrase as a substring, the result is
    event "UNKNOWN", pointAwardedTo absent and needsReview true, the
    playerNumber being whatever number extraction found: the two point
    phrases are excluded from substring phrase matching. -/
theorem C10_point_substring_not_matched (t : String) (n : Int)
    (h1 : normalize_with_synonyms t ≠ "point us")
    (h2 : normalize_with_synonyms t ≠ "point them")
    (h3 : containsSub "point us".data (normalize_with_synonyms t).data = true ∨
          containsSub "point them".data (normalize_with_synonyms t).data = true)
    (h4 : ∀ p ∈ sortedEventPhrases, p ≠ "point us" → p ≠ "point them" →
          containsSub p.data (normalize_with_synonyms t).data = false) :
    parse_command t n =
      some ⟨n, findNumber (normalize_with_synonyms t).data, "UNKNOWN", none, true, t⟩ := by
  have hpf := isPointCmd_eq_false _ h1 h2
  have hfp : findPhrase (normalize_with_synonyms t) = none := by
    unfold findPhrase
    rw [List.find?_eq_none]
    intro p hp
    by_cases hpu : p = "point us"
    · subst hpu; simp
    · by_cases hptm : p = "point them"
      · subst hptm; simp
      · simp [h4 p hp hpu hptm]
  show match_event (normalize_with_synonyms t) t n = _
  unfold match_event
  rw [hpf]
  simp only [Bool.false_eq_true, if_false, hfp]

/-- C10 witness: "5 our point" normalizes to "5 point us", which properly
    contains "point us" and no other canonical phrase; the parse is UNKNOWN
    and needs review although player 5 was extracted. -/
theorem C10_witness :
    parse_command "5 our point" 0 =
      some ⟨0, findNumber (normalize_with_synonyms "5 our point").data,
        "UNKNOWN", none, true, "5 our point"⟩ :=
  C10_point_substring_not_matched "5 our point" 0
    (by decide) (by decide) (Or.inl (by decide)) (by decide)
